import Mathlib

/-!
Verification of the event-to-session reconciliation engine of the
telegram time-tracker bot (`src/services/time-tracking.service.ts`,
`src/services/report.service.ts`, entities `time-entry.entity.ts`,
`work-session.entity.ts`, `user.entity.ts`).

Shallow embedding conventions:
- Instants are `Int` minutes since an arbitrary epoch (the `timestamp`
  columns are UTC-anchored `timestamp` values).
- An IANA time zone is embedded as its UTC offset in minutes (`tz : Int`);
  `moment.tz(t, zone).format(YYYY-MM-DD)` becomes `localDay t tz`, the
  local calendar date as a day number.
- Hours with two decimals (`parseFloat(x.toFixed(2))`) are embedded as
  centi-hours (`Int`); `round2 m` converts a duration of `m` minutes to
  centi-hours with round-half-away-from-zero semantics for the
  non-negative durations that arise.
- `moment()` (the wall clock read inside `updateWorkSession`) is passed
  explicitly as a `now : Int` parameter.
- The TypeORM repositories are embedded as in-memory lists inside `DB`;
  `find` with an equality `where` clause is `List.filter`, `findOne` is
  `List.find?`, and `save` of a found-or-created `WorkSession` is
  `saveSession` (replace the found row, else insert).
-/

/-- `EntryType` enum of `time-entry.entity.ts`. -/
inductive EntryType
  | check_in
  | check_out
deriving DecidableEq, Repr

/-- `TimeEntry` entity (`time-entry.entity.ts`): one immutable ledger row.
The display-only columns `id`, `topicId`, `createdAt` are omitted; no
embedded operation reads them. -/
structure TimeEntry where
  telegramId : String
  type : EntryType
  timestamp : Int
  note : Option String := none
  messageId : Option String := none
deriving DecidableEq, Repr

/-- `WorkSession` entity (`work-session.entity.ts`): the persisted daily
Session Aggregate, keyed by the unique index on `(telegramId, date)`.
`totalHours` is stored in centi-hours. The display-only columns `id`,
`breaks`, `notes`, `createdAt`, `updatedAt` are omitted. -/
structure WorkSession where
  telegramId : String
  date : Int
  checkIn : Option Int := none
  checkOut : Option Int := none
  totalHours : Int := 0
  breakMinutes : Int := 0
  isComplete : Bool := false
deriving DecidableEq, Repr

/-- `User` entity (`user.entity.ts`): `timezone` is the UTC offset in
minutes of the user's IANA zone. -/
structure User where
  telegramId : String
  timezone : Int
  isActive : Bool := true
deriving DecidableEq, Repr

/-- The persisted state: the three repositories used by
`TimeTrackingService`. -/
structure DB where
  users : List User
  timeEntries : List TimeEntry
  workSessions : List WorkSession
deriving DecidableEq, Repr

/-- `moment.tz(t, zone).format(YYYY-MM-DD)`: the local calendar date (as
a day number) of instant `t` in a zone with offset `tz` minutes. -/
def localDay (t tz : Int) : Int :=
  (t + tz).fdiv 1440

/-- `moment.tz(date, zone).toDate()` and equally
`moment.tz(date, zone).startOf(day).toDate()`: the UTC instant of local
midnight of local day `d`. -/
def startOfLocalDay (d tz : Int) : Int :=
  d * 1440 - tz

/-- `moment.tz(t, zone).format(HH:mm)` as minutes past local midnight. -/
def localMinuteOfDay (t tz : Int) : Int :=
  (t + tz).emod 1440

/-- `parseFloat(duration.asHours().toFixed(2))` for a duration of `m`
minutes, as centi-hours: the nearest integer to `100 * m / 60` (no
half-way case exists for integer `m`). -/
def round2 (m : Int) : Int :=
  (10 * m + 3).fdiv 6

/-- `currentDuration.toFixed(1)` for a duration of `m` minutes, as
tenths of an hour (the live "currently working" display value). -/
def round1 (m : Int) : Int :=
  (2 * m + 6).fdiv 12

/-- `userService.findByTelegramId`. -/
def findUser (db : DB) (telegramId : String) : Option User :=
  db.users.find? (fun u => u.telegramId == telegramId)

/-- `workSessionRepository.findOne({ where: { telegramId, date } })`. -/
def findSession (sessions : List WorkSession) (telegramId : String) (date : Int) :
    Option WorkSession :=
  sessions.find? (fun w => w.telegramId == telegramId && w.date == date)

/-- `workSessionRepository.save(workSession)` where `workSession` was
either found by `findOne` (update that row) or freshly created (insert).
Under the unique index of `work-session.entity.ts` this is
replace-the-first-matching-row-or-append. -/
def saveSession : List WorkSession → WorkSession → List WorkSession
  | [], ws => [ws]
  | w :: rest, ws =>
    if w.telegramId == ws.telegramId && w.date == ws.date then
      ws :: rest
    else
      w :: saveSession rest ws

/-- `timeEntryRepository.find({ where: { telegramId, timestamp: t } })`:
NOTE the source filters on timestamp EQUALITY, not on a day range (its
own comment reads: This might need adjustment for proper date range
query). Ascending order is insertion order restricted by the filter,
since all results share one timestamp value. -/
def entriesAt (entries : List TimeEntry) (telegramId : String) (t : Int) :
    List TimeEntry :=
  entries.filter (fun e => e.telegramId == telegramId && e.timestamp == t)

/-- The body of `updateWorkSession` after the entries have been fetched:
take the found-or-created session, set `checkIn` to the first fetched
check-in and `checkOut` to the last fetched check-out (each only when
present), then branch exactly as the source does: both present ⇒ span
`checkOut − checkIn`, complete; only `checkIn` ⇒ live `now − checkIn`,
incomplete; otherwise leave the remaining fields untouched. -/
def computeSession (ws0 : WorkSession) (entries : List TimeEntry) (now : Int) :
    WorkSession :=
  let checkIns := entries.filter (fun e => e.type == EntryType.check_in)
  let checkOuts := entries.filter (fun e => e.type == EntryType.check_out)
  let ws1 :=
    match checkIns.head? with
    | some e => { ws0 with checkIn := some e.timestamp }
    | none => ws0
  let ws2 :=
    match checkOuts.getLast? with
    | some e => { ws1 with checkOut := some e.timestamp }
    | none => ws1
  match ws2.checkIn, ws2.checkOut with
  | some ci, some co =>
      { ws2 with totalHours := round2 (co - ci), isComplete := true }
  | some ci, none =>
      { ws2 with totalHours := round2 (now - ci), isComplete := false }
  | none, _ => ws2

/-- `TimeTrackingService.updateWorkSession(telegramId, date, timezone)`:
find-or-create the aggregate row for `(telegramId, date)`, fetch the
entries whose timestamp EQUALS the start-of-day instant (the source
computes `startOfDay`/`endOfDay` but uses only `startOfDay`, as an
equality), recompute the fields, and save. Returns the saved session
and the new state. -/
def updateWorkSession (db : DB) (telegramId : String) (date tz now : Int) :
    WorkSession × DB :=
  let ws0 :=
    (findSession db.workSessions telegramId date).getD
      { telegramId := telegramId, date := date, totalHours := 0,
        breakMinutes := 0, isComplete := false }
  let entries := entriesAt db.timeEntries telegramId (startOfLocalDay date tz)
  let ws := computeSession ws0 entries now
  (ws, { db with workSessions := saveSession db.workSessions ws })

/-- The distinct user-facing messages returned by
`TimeTrackingService.checkIn` / `checkOut`, with the data interpolated
into the message text carried as arguments. -/
inductive BotMessage
  | userNotFound
  | alreadyCheckedIn (lastCheckInLocal : Int)
  | checkedInOk
  | needCheckInFirst
  | alreadyCheckedOut
  | checkedOutOk
deriving DecidableEq, Repr

/-- The `TimeTrackingResult` interface of `time-tracking.service.ts`. -/
structure TimeTrackingResult where
  success : Bool
  message : BotMessage
  formattedTime : Option Int := none
  date : Option Int := none
  totalHours : Option Int := none
deriving DecidableEq, Repr

/-- `TimeTrackingService.checkIn(telegramId, timestamp, messageId?, note?)`.
The `existingCheckIn` findOne of the source is dead code (its result is
never read) and is omitted. The duplicate-check-in validation counts
check-ins and check-outs among the entries whose timestamp EQUALS the
start-of-day instant of the local day of `timestamp` (the source
queries `timestamp: moment.tz(today, zone).toDate()`); descending
order over one shared timestamp value is embedded as `List.reverse` of
insertion order. -/
def checkIn (db : DB) (telegramId : String) (timestamp now : Int)
    (messageId note : Option String) : TimeTrackingResult × DB :=
  match findUser db telegramId with
  | none => ({ success := false, message := BotMessage.userNotFound }, db)
  | some user =>
    let tz := user.timezone
    let today := localDay timestamp tz
    let todayEntries :=
      (entriesAt db.timeEntries telegramId (startOfLocalDay today tz)).reverse
    let todayCheckIns := todayEntries.filter (fun e => e.type == EntryType.check_in)
    let todayCheckOuts := todayEntries.filter (fun e => e.type == EntryType.check_out)
    if todayCheckOuts.length < todayCheckIns.length then
      let lastCheckInTime :=
        match todayCheckIns.head? with
        | some e => localMinuteOfDay e.timestamp tz
        | none => 0
      ({ success := false, message := BotMessage.alreadyCheckedIn lastCheckInTime }, db)
    else
      let entry : TimeEntry :=
        { telegramId := telegramId, type := EntryType.check_in,
          timestamp := timestamp, note := note, messageId := messageId }
      let db1 := { db with timeEntries := db.timeEntries ++ [entry] }
      let db2 := (updateWorkSession db1 telegramId today tz now).2
      ({ success := true, message := BotMessage.checkedInOk,
         formattedTime := some (localMinuteOfDay timestamp tz),
         date := some today }, db2)

/-- `TimeTrackingService.checkOut(telegramId, timestamp, messageId?, note?)`.
The source computes `startOfDay`/`endOfDay` and never uses them: its
entries query filters on `timestamp: moment.tz(timestamp, zone).toDate()`,
which is the check-out instant itself, so the validation counts only the
entries timestamped exactly at `timestamp`. -/
def checkOut (db : DB) (telegramId : String) (timestamp now : Int)
    (messageId note : Option String) : TimeTrackingResult × DB :=
  match findUser db telegramId with
  | none => ({ success := false, message := BotMessage.userNotFound }, db)
  | some user =>
    let tz := user.timezone
    let today := localDay timestamp tz
    let todayEntries := entriesAt db.timeEntries telegramId timestamp
    let checkIns := todayEntries.filter (fun e => e.type == EntryType.check_in)
    let checkOuts := todayEntries.filter (fun e => e.type == EntryType.check_out)
    if checkIns.length = 0 then
      ({ success := false, message := BotMessage.needCheckInFirst }, db)
    else if checkIns.length ≤ checkOuts.length then
      ({ success := false, message := BotMessage.alreadyCheckedOut }, db)
    else
      let entry : TimeEntry :=
        { telegramId := telegramId, type := EntryType.check_out,
          timestamp := timestamp, note := note, messageId := messageId }
      let db1 := { db with timeEntries := db.timeEntries ++ [entry] }
      let r := updateWorkSession db1 telegramId today tz now
      ({ success := true, message := BotMessage.checkedOutOk,
         formattedTime := some (localMinuteOfDay timestamp tz),
         date := some today,
         totalHours := some r.1.totalHours }, r.2)

/-- All events of user `telegramId` whose instant falls in local day `d`
of a zone with offset `tz` (the Event Ledger restricted to one local
day, in ledger order). Used to state spec-side properties. -/
def dayEvents (entries : List TimeEntry) (telegramId : String) (d tz : Int) :
    List TimeEntry :=
  entries.filter (fun e => e.telegramId == telegramId && localDay e.timestamp tz == d)

/-- Follows the words of the spec (recomputeAggregate walk, for the
refinement comparison): walk the day ascending, open a check-in when
none is open, on a check-out close the open pair and add its rounded
duration, skip unmatched check-outs, never reopen on extra check-ins.
Result in centi-hours; a trailing open check-in contributes nothing. -/
def specClosedPairSum : List TimeEntry → Option Int → Int
  | [], _ => 0
  | e :: rest, none =>
    if e.type == EntryType.check_in then
      specClosedPairSum rest (some e.timestamp)
    else
      specClosedPairSum rest none
  | e :: rest, some openCi =>
    if e.type == EntryType.check_out then
      round2 (e.timestamp - openCi) + specClosedPairSum rest none
    else
      specClosedPairSum rest (some openCi)

/-- Follows the words of the spec: the accumulated duration of a local
day is the closed-pair walk started with no open check-in. -/
def specAccumulatedDuration (events : List TimeEntry) : Int :=
  specClosedPairSum events none

/-- JavaScript `Array.prototype.sort` with the comparator
`(a, b) => b.totalHours - a.totalHours` of `getMonthlyReport` is a
STABLE sort descending by `totalHours` (ties keep input order);
embedded as stable insertion: an element is placed before the first
already-placed element whose hours do not exceed its own. -/
def insertByHoursDesc (s : WorkSession) : List WorkSession → List WorkSession
  | [] => [s]
  | t :: ts =>
    if t.totalHours ≤ s.totalHours then
      s :: t :: ts
    else
      t :: insertByHoursDesc s ts

/-- Stable descending-by-hours sort (see `insertByHoursDesc`). -/
def sortByHoursDesc : List WorkSession → List WorkSession
  | [] => []
  | s :: ss => insertByHoursDesc s (sortByHoursDesc ss)

/-- `workSessions.filter(s => s.totalHours > 0)` of `getMonthlyReport`,
applied to the ascending-by-date query result. -/
def activeSessions (l : List WorkSession) : List WorkSession :=
  l.filter (fun s => 0 < s.totalHours)

/-- `sessionsWithHours` of `getMonthlyReport`: active sessions of the
month sorted descending by hours (stably, so ascending date order is
kept among equal-hour days). -/
def sessionsWithHours (l : List WorkSession) : List WorkSession :=
  sortByHoursDesc (activeSessions l)

/-- `bestDay = sessionsWithHours[0]` of `getMonthlyReport`. -/
def bestDay (l : List WorkSession) : Option WorkSession :=
  (sessionsWithHours l).head?

/-- `worstDay = sessionsWithHours[sessionsWithHours.length - 1]` of
`getMonthlyReport` (the Shortest day record, shown when more than one
active day exists). -/
def worstDay (l : List WorkSession) : Option WorkSession :=
  (sessionsWithHours l).getLast?

/-- The first element of `l` attaining the maximum of `totalHours`
(first occurrence in input order wins ties). -/
def firstMaxByHours : List WorkSession → Option WorkSession
  | [] => none
  | s :: ss =>
    match firstMaxByHours ss with
    | none => some s
    | some t => if t.totalHours ≤ s.totalHours then some s else some t

/-- The last element of `l` attaining the minimum of `totalHours`
(last occurrence in input order wins ties). -/
def lastMinByHours : List WorkSession → Option WorkSession
  | [] => none
  | s :: ss =>
    match lastMinByHours ss with
    | none => some s
    | some t => if t.totalHours ≤ s.totalHours then some t else some s

/-- Follows the words of the spec (for the refinement comparison): the
first element of `l` attaining the minimum of `totalHours`, i.e. the
first-occurrence tie-break the spec prescribes for the Shortest day. -/
def firstMinByHours : List WorkSession → Option WorkSession
  | [] => none
  | s :: ss =>
    match firstMinByHours ss with
    | none => some s
    | some t => if s.totalHours ≤ t.totalHours then some s else some t

/-- Descending order by `totalHours`. -/
def SortedDesc (l : List WorkSession) : Prop :=
  l.Pairwise (fun a b => b.totalHours ≤ a.totalHours)

/-- The check-in entries visible to `updateWorkSession` for
`(tid, d, tz)`: those timestamped exactly at the local day-start. -/
def visibleCheckIns (db : DB) (tid : String) (d tz : Int) : List TimeEntry :=
  (entriesAt db.timeEntries tid (startOfLocalDay d tz)).filter
    (fun e => e.type == EntryType.check_in)

/-- The check-out entries visible to `updateWorkSession` for
`(tid, d, tz)`: those timestamped exactly at the local day-start. -/
def visibleCheckOuts (db : DB) (tid : String) (d tz : Int) : List TimeEntry :=
  (entriesAt db.timeEntries tid (startOfLocalDay d tz)).filter
    (fun e => e.type == EntryType.check_out)

/-- The uniqueness invariant of the Session Aggregate store: no two
rows share the `(telegramId, date)` key. -/
def KeyDistinct (l : List WorkSession) : Prop :=
  l.Pairwise (fun a b => a.telegramId ≠ b.telegramId ∨ a.date ≠ b.date)

section SanityChecks

/-- A user in UTC (offset 0) used by the concrete runs below. -/
def uZero : User := { telegramId := "u", timezone := 0 }

example : localDay 540 0 = 0 := by decide
example : localDay 1435 60 = 1 := by decide
example : localDay 1455 60 = 1 := by decide
example : round2 150 = 250 := by decide
example : round2 480 = 800 := by decide
example : round2 0 = 0 := by decide
example :
    specAccumulatedDuration
      [{ telegramId := "u", type := EntryType.check_in, timestamp := 540 },
       { telegramId := "u", type := EntryType.check_out, timestamp := 1020 }] = 800 := by
  decide

end SanityChecks

/-- A state with one UTC user and an empty ledger. -/
def dbEmptyLedger : DB :=
  { users := [uZero], timeEntries := [], workSessions := [] }

/-- A state with no registered users. -/
def dbNoUsers : DB :=
  { users := [], timeEntries := [], workSessions := [] }

/-- Ledger of one closed pair 09:00-17:00 (minutes 540 and 1020) on
local day 0 of the UTC user. -/
def dbClosedPair : DB :=
  { users := [uZero],
    timeEntries :=
      [{ telegramId := "u", type := EntryType.check_in, timestamp := 540 },
       { telegramId := "u", type := EntryType.check_out, timestamp := 1020 }],
    workSessions := [] }

/-- Ledger of a single check-in exactly at the start instant of local
day 0 of the UTC user. -/
def dbMidnightCheckIn : DB :=
  { users := [uZero],
    timeEntries :=
      [{ telegramId := "u", type := EntryType.check_in, timestamp := 0 }],
    workSessions := [] }

/-- Ledger whose only event is a check-out at the start instant of
local day 0 of the UTC user. -/
def dbOnlyCheckOut : DB :=
  { users := [uZero],
    timeEntries :=
      [{ telegramId := "u", type := EntryType.check_out, timestamp := 0 }],
    workSessions := [] }

/-- A user whose zone is UTC plus one hour. -/
def uPlus60 : User := { telegramId := "u", timezone := 60 }

/-- A state with the UTC-plus-one-hour user and an empty ledger. -/
def dbPlus60 : DB :=
  { users := [uPlus60], timeEntries := [], workSessions := [] }

/-- Monthly aggregate for the tie-break runs: a five-hour day on date 1. -/
def wsBest : WorkSession :=
  { telegramId := "u", date := 1, totalHours := 500, isComplete := true }

/-- First of the two tied shortest days (date 2, two hours). -/
def wsShortA : WorkSession :=
  { telegramId := "u", date := 2, totalHours := 200, isComplete := true }

/-- Second of the two tied shortest days (date 3, two hours). -/
def wsShortB : WorkSession :=
  { telegramId := "u", date := 3, totalHours := 200, isComplete := true }

/-- The ascending-by-date monthly result set with a tie at the minimum. -/
def monthSessions : List WorkSession := [wsBest, wsShortA, wsShortB]

/-- Inserting never produces the empty list. -/
theorem insertByHoursDesc_ne_nil (s : WorkSession) (l : List WorkSession) :
    insertByHoursDesc s l ≠ [] := by
  cases l with
  | nil => simp [insertByHoursDesc]
  | cons t ts =>
    unfold insertByHoursDesc
    split <;> simp

/-- Membership in an insertion result. -/
theorem mem_insertByHoursDesc {x s : WorkSession} {l : List WorkSession}
    (h : x ∈ insertByHoursDesc s l) : x = s ∨ x ∈ l := by
  induction l with
  | nil => simpa [insertByHoursDesc] using h
  | cons t ts ih =>
    by_cases hc : t.totalHours ≤ s.totalHours
    · simp only [insertByHoursDesc, if_pos hc] at h
      rcases List.mem_cons.mp h with h1 | h1
      · exact Or.inl h1
      · exact Or.inr h1
    · simp only [insertByHoursDesc, if_neg hc] at h
      rcases List.mem_cons.mp h with h1 | h1
      · exact Or.inr (by simp [h1])
      · rcases ih h1 with h2 | h2
        · exact Or.inl h2
        · exact Or.inr (by simp [h2])

/-- Insertion preserves descending order. -/
theorem sortedDesc_insertByHoursDesc {s : WorkSession} {l : List WorkSession}
    (h : SortedDesc l) : SortedDesc (insertByHoursDesc s l) := by
  induction l with
  | nil => simp [SortedDesc, insertByHoursDesc]
  | cons t ts ih =>
    simp only [SortedDesc, List.pairwise_cons] at h
    obtain ⟨ht, hts⟩ := h
    by_cases hc : t.totalHours ≤ s.totalHours
    · simp only [insertByHoursDesc, if_pos hc, SortedDesc, List.pairwise_cons]
      refine ⟨?_, ht, hts⟩
      intro x hx
      rcases List.mem_cons.mp hx with h1 | h1
      · exact h1 ▸ hc
      · exact le_trans (ht x h1) hc
    · simp only [insertByHoursDesc, if_neg hc, SortedDesc, List.pairwise_cons]
      refine ⟨?_, ?_⟩
      · intro x hx
        rcases mem_insertByHoursDesc hx with h1 | h1
        · exact h1 ▸ le_of_not_le hc
        · exact ht x h1
      · have := ih (by simpa [SortedDesc] using hts)
        simpa [SortedDesc] using this

/-- The sort produces a descending list. -/
theorem sortedDesc_sortByHoursDesc (l : List WorkSession) :
    SortedDesc (sortByHoursDesc l) := by
  induction l with
  | nil => simp [SortedDesc, sortByHoursDesc]
  | cons s ss ih => exact sortedDesc_insertByHoursDesc ih

/-- Head of an insertion. -/
theorem head?_insertByHoursDesc (s : WorkSession) (l : List WorkSession) :
    (insertByHoursDesc s l).head? =
      some (match l.head? with
            | none => s
            | some t => if t.totalHours ≤ s.totalHours then s else t) := by
  cases l with
  | nil => simp [insertByHoursDesc]
  | cons t ts =>
    by_cases hc : t.totalHours ≤ s.totalHours
    · simp [insertByHoursDesc, if_pos hc, hc]
    · simp [insertByHoursDesc, if_neg hc, hc]

/-- The head of the stable descending sort is the FIRST occurrence of
the maximum in the input order. -/
theorem head?_sortByHoursDesc (l : List WorkSession) :
    (sortByHoursDesc l).head? = firstMaxByHours l := by
  induction l with
  | nil => rfl
  | cons s ss ih =>
    unfold sortByHoursDesc firstMaxByHours
    rw [head?_insertByHoursDesc, ← ih]
    cases h : (sortByHoursDesc ss).head? with
    | none => simp
    | some t => simp [apply_ite Option.some]

/-- A last element is a member. -/
theorem mem_of_getLast?_eq {α : Type} {l : List α} {w : α}
    (h : l.getLast? = some w) : w ∈ l := by
  induction l with
  | nil => simp at h
  | cons t ts ih =>
    cases ts with
    | nil =>
      simp at h
      simp [h]
    | cons t2 ts2 =>
      rw [List.getLast?_cons_cons] at h
      exact List.mem_cons_of_mem t (ih h)

/-- A nonempty list has a last element. -/
theorem getLast?_cons_isSome {α : Type} (a : α) (l : List α) :
    ∃ w, (a :: l).getLast? = some w := by
  induction l generalizing a with
  | nil => exact ⟨a, by simp⟩
  | cons b bs ih =>
    rw [List.getLast?_cons_cons]
    exact ih b

/-- Dropping the head of a cons with nonempty tail keeps the last. -/
theorem getLast?_cons_of_ne_nil {α : Type} (a : α) {l : List α}
    (h : l ≠ []) : (a :: l).getLast? = l.getLast? := by
  cases l with
  | nil => exact absurd rfl h
  | cons b bs => exact List.getLast?_cons_cons

/-- Last element of an insertion into a descending list. -/
theorem getLast?_insertByHoursDesc (s : WorkSession) {l : List WorkSession}
    (hs : SortedDesc l) :
    (insertByHoursDesc s l).getLast? =
      some (match l.getLast? with
            | none => s
            | some w => if w.totalHours ≤ s.totalHours then w else s) := by
  induction l with
  | nil => simp [insertByHoursDesc]
  | cons t ts ih =>
    simp only [SortedDesc, List.pairwise_cons] at hs
    obtain ⟨ht, hts⟩ := hs
    by_cases hc : t.totalHours ≤ s.totalHours
    · simp only [insertByHoursDesc, if_pos hc]
      rw [getLast?_cons_of_ne_nil s (by simp)]
      cases hts2 : ts with
      | nil => simp [hc]
      | cons t2 ts2 =>
        rw [List.getLast?_cons_cons]
        obtain ⟨w, hw⟩ := getLast?_cons_isSome t2 ts2
        have hwmem : w ∈ ts := hts2 ▸ mem_of_getLast?_eq hw
        have hws : w.totalHours ≤ s.totalHours :=
          le_trans (ht w (hts2 ▸ hwmem)) hc
        simp [hw, hws]
    · simp only [insertByHoursDesc, if_neg hc]
      rw [getLast?_cons_of_ne_nil t (insertByHoursDesc_ne_nil s ts)]
      rw [ih (by simpa [SortedDesc] using hts)]
      cases hts2 : ts with
      | nil => simp [hc]
      | cons t2 ts2 => rw [List.getLast?_cons_cons]

/-- The last element of the stable descending sort is the LAST
occurrence of the minimum in the input order. -/
theorem getLast?_sortByHoursDesc (l : List WorkSession) :
    (sortByHoursDesc l).getLast? = lastMinByHours l := by
  induction l with
  | nil => rfl
  | cons s ss ih =>
    unfold sortByHoursDesc lastMinByHours
    rw [getLast?_insertByHoursDesc s (sortedDesc_sortByHoursDesc ss), ← ih]
    cases h : (sortByHoursDesc ss).getLast? with
    | none => simp
    | some t => simp [apply_ite Option.some]

/-- A head element is a member (any element type). -/
theorem mem_of_head?_eq {α : Type} {l : List α} {a : α} (h : l.head? = some a) :
    a ∈ l := by
  cases l with
  | nil => simp at h
  | cons b bs =>
    simp at h
    simp [h]

/-- Every entry returned by the equality-filtered fetch carries the
queried user and the queried timestamp. -/
theorem entriesAt_spec {l : List TimeEntry} {tid : String} {t : Int}
    {e : TimeEntry} (h : e ∈ entriesAt l tid t) :
    e.telegramId = tid ∧ e.timestamp = t := by
  have hm := List.mem_filter.mp h
  simpa using hm.2

theorem computeSession_idem (ws0 : WorkSession) (e : List TimeEntry) (n : Int) :
    computeSession (computeSession ws0 e n) e n = computeSession ws0 e n := by
  unfold computeSession
  cases h1 : (e.filter (fun x => x.type == EntryType.check_in)).head? <;>
    cases h2 : (e.filter (fun x => x.type == EntryType.check_out)).getLast? <;>
      simp only [h1, h2] <;>
    cases h3 : ws0.checkIn <;> cases h4 : ws0.checkOut <;> simp [h3, h4]

theorem computeSession_telegramId (ws0 : WorkSession) (e : List TimeEntry) (n : Int) :
    (computeSession ws0 e n).telegramId = ws0.telegramId := by
  unfold computeSession
  cases h1 : (e.filter (fun x => x.type == EntryType.check_in)).head? <;>
    cases h2 : (e.filter (fun x => x.type == EntryType.check_out)).getLast? <;>
      simp only [h1, h2] <;>
    cases h3 : ws0.checkIn <;> cases h4 : ws0.checkOut <;> simp [h3, h4]

theorem computeSession_date (ws0 : WorkSession) (e : List TimeEntry) (n : Int) :
    (computeSession ws0 e n).date = ws0.date := by
  unfold computeSession
  cases h1 : (e.filter (fun x => x.type == EntryType.check_in)).head? <;>
    cases h2 : (e.filter (fun x => x.type == EntryType.check_out)).getLast? <;>
      simp only [h1, h2] <;>
    cases h3 : ws0.checkIn <;> cases h4 : ws0.checkOut <;> simp [h3, h4]

theorem findSession_key {l : List WorkSession} {tid : String} {d : Int}
    {w : WorkSession} (h : findSession l tid d = some w) :
    w.telegramId = tid ∧ w.date = d := by
  have hp := List.find?_some h
  simp only [Bool.and_eq_true, beq_iff_eq] at hp
  exact hp

theorem findSession_saveSession {ws : WorkSession} (l : List WorkSession)
    {tid : String} {d : Int} (h1 : ws.telegramId = tid) (h2 : ws.date = d) :
    findSession (saveSession l ws) tid d = some ws := by
  subst h1
  subst h2
  induction l with
  | nil => simp [saveSession, findSession, List.find?]
  | cons w rest ih =>
    by_cases hc : (w.telegramId == ws.telegramId && w.date == ws.date) = true
    · simp only [saveSession, if_pos hc]
      simp [findSession, List.find?]
    · simp only [saveSession, if_neg hc]
      have hw : (w.telegramId == ws.telegramId && w.date == ws.date) = false :=
        Bool.eq_false_iff.mpr hc
      simp only [findSession, List.find?, hw] at ih ⊢
      exact ih

theorem saveSession_idem (l : List WorkSession) (ws : WorkSession) :
    saveSession (saveSession l ws) ws = saveSession l ws := by
  have hself : (ws.telegramId == ws.telegramId && ws.date == ws.date) = true := by
    simp
  induction l with
  | nil => simp only [saveSession, if_pos hself]
  | cons w rest ih =>
    by_cases hc : (w.telegramId == ws.telegramId && w.date == ws.date) = true
    · simp only [saveSession, if_pos hc, if_pos hself]
    · simp only [saveSession, if_neg hc, ih]

theorem mem_saveSession {x ws : WorkSession} {l : List WorkSession}
    (h : x ∈ saveSession l ws) : x ∈ l ∨ x = ws := by
  induction l with
  | nil =>
    simp [saveSession] at h
    exact Or.inr h
  | cons w rest ih =>
    by_cases hc : (w.telegramId == ws.telegramId && w.date == ws.date) = true
    · simp only [saveSession, if_pos hc] at h
      rcases List.mem_cons.mp h with h1 | h1
      · exact Or.inr h1
      · exact Or.inl (List.mem_cons_of_mem w h1)
    · simp only [saveSession, if_neg hc] at h
      rcases List.mem_cons.mp h with h1 | h1
      · exact Or.inl (by simp [h1])
      · rcases ih h1 with h2 | h2
        · exact Or.inl (List.mem_cons_of_mem w h2)
        · exact Or.inr h2

/-- First projection of `updateWorkSession` spelled out. -/
theorem updateWorkSession_fst (db : DB) (tid : String) (d tz now : Int) :
    (updateWorkSession db tid d tz now).1 =
      computeSession
        ((findSession db.workSessions tid d).getD
          { telegramId := tid, date := d, totalHours := 0,
            breakMinutes := 0, isComplete := false })
        (entriesAt db.timeEntries tid (startOfLocalDay d tz)) now := rfl

/-- Second projection of `updateWorkSession` spelled out. -/
theorem updateWorkSession_snd (db : DB) (tid : String) (d tz now : Int) :
    (updateWorkSession db tid d tz now).2 =
      { db with
        workSessions :=
          saveSession db.workSessions (updateWorkSession db tid d tz now).1 } := rfl

/-- The recomputed session always carries the queried user id. -/
theorem updateWorkSession_key_telegramId (db : DB) (tid : String) (d tz now : Int) :
    (updateWorkSession db tid d tz now).1.telegramId = tid := by
  rw [updateWorkSession_fst, computeSession_telegramId]
  cases h : findSession db.workSessions tid d with
  | none => simp
  | some w => simp [(findSession_key h).1]

/-- The recomputed session always carries the queried local date. -/
theorem updateWorkSession_key_date (db : DB) (tid : String) (d tz now : Int) :
    (updateWorkSession db tid d tz now).1.date = d := by
  rw [updateWorkSession_fst, computeSession_date]
  cases h : findSession db.workSessions tid d with
  | none => simp
  | some w => simp [(findSession_key h).2]

/-- The recomputed session is retrievable by its key after the save. -/
theorem findSession_after_update (db : DB) (tid : String) (d tz now : Int) :
    findSession (updateWorkSession db tid d tz now).2.workSessions tid d =
      some (updateWorkSession db tid d tz now).1 := by
  rw [updateWorkSession_snd]
  exact findSession_saveSession _ (updateWorkSession_key_telegramId db tid d tz now)
    (updateWorkSession_key_date db tid d tz now)

/-- A zero-minute duration rounds to zero centi-hours. -/
theorem round2_zero : round2 0 = 0 := by decide

/-- Saving a session preserves key distinctness of the store. -/
theorem keyDistinct_saveSession {l : List WorkSession} (ws : WorkSession)
    (h : KeyDistinct l) : KeyDistinct (saveSession l ws) := by
  induction l with
  | nil => simp [KeyDistinct, saveSession]
  | cons w rest ih =>
    simp only [KeyDistinct, List.pairwise_cons] at h
    obtain ⟨hw, hrest⟩ := h
    by_cases hc : (w.telegramId == ws.telegramId && w.date == ws.date) = true
    · simp only [saveSession, if_pos hc, KeyDistinct, List.pairwise_cons]
      simp only [Bool.and_eq_true, beq_iff_eq] at hc
      refine ⟨?_, hrest⟩
      intro x hx
      rcases hw x hx with h1 | h1
      · exact Or.inl (hc.1 ▸ h1)
      · exact Or.inr (hc.2 ▸ h1)
    · simp only [saveSession, if_neg hc, KeyDistinct, List.pairwise_cons]
      refine ⟨?_, by simpa [KeyDistinct] using ih (by simpa [KeyDistinct] using hrest)⟩
      intro x hx
      rcases mem_saveSession hx with h1 | h1
      · exact hw x h1
      · subst h1
        simp only [Bool.and_eq_true, beq_iff_eq] at hc
        rw [not_and_or] at hc
        exact hc

/-- Claim C1 counterexample: on a ledger whose local day 0 holds the
fully closed pair 09:00-17:00, the spec-side accumulated duration of
the day is 8.00 hours (800 centi-hours) while the duration stored by
`updateWorkSession` is 0, so the stored total does not equal the sum of
closed pairs. -/
theorem c1_counterexample_closed_pair_ignored :
    specAccumulatedDuration (dayEvents dbClosedPair.timeEntries "u" 0 0) = 800 ∧
    (updateWorkSession dbClosedPair "u" 0 0 2000).1.totalHours = 0 := by
  decide

/-- Claim C1 (amended): for a day with no previously stored aggregate,
the stored duration is computed only from the events timestamped exactly
at the local day-start instant: it is 0 when no check-in is visible
there, it is 0 as well when both a check-in and a check-out are visible
(their instants coincide, so closed pairs elsewhere in the day
contribute nothing), and it is the live value round2(now minus
day-start) when only check-ins are visible, so an open visible check-in
does contribute to the stored total. -/
theorem c1_amended_stored_total (db : DB) (tid : String) (d tz now : Int)
    (hNoPrior : findSession db.workSessions tid d = none) :
    (updateWorkSession db tid d tz now).1.totalHours =
      if visibleCheckIns db tid d tz = [] then 0
      else if visibleCheckOuts db tid d tz = [] then
        round2 (now - startOfLocalDay d tz)
      else 0 := by
  rw [updateWorkSession_fst, hNoPrior]
  simp only [Option.getD_none, visibleCheckIns, visibleCheckOuts]
  unfold computeSession
  cases h1 : ((entriesAt db.timeEntries tid (startOfLocalDay d tz)).filter
      (fun e => e.type == EntryType.check_in)).head? with
  | none =>
    have hnil : (entriesAt db.timeEntries tid (startOfLocalDay d tz)).filter
        (fun e => e.type == EntryType.check_in) = [] :=
      List.head?_eq_none_iff.mp h1
    cases h2 : ((entriesAt db.timeEntries tid (startOfLocalDay d tz)).filter
        (fun e => e.type == EntryType.check_out)).getLast? <;>
      simp [h1, h2, hnil]
  | some a =>
    have hne : (entriesAt db.timeEntries tid (startOfLocalDay d tz)).filter
        (fun e => e.type == EntryType.check_in) ≠ [] := by
      intro hq
      rw [hq] at h1
      simp at h1
    have hats : a.timestamp = startOfLocalDay d tz := by
      have hmem := mem_of_head?_eq h1
      have hmem2 : a ∈ entriesAt db.timeEntries tid (startOfLocalDay d tz) :=
        List.mem_of_mem_filter hmem
      exact (entriesAt_spec hmem2).2
    cases h2 : ((entriesAt db.timeEntries tid (startOfLocalDay d tz)).filter
        (fun e => e.type == EntryType.check_out)).getLast? with
    | none =>
      have hnil2 : (entriesAt db.timeEntries tid (startOfLocalDay d tz)).filter
          (fun e => e.type == EntryType.check_out) = [] :=
        List.getLast?_eq_none_iff.mp h2
      simp [h1, h2, hne, hnil2, hats]
    | some b =>
      have hne2 : (entriesAt db.timeEntries tid (startOfLocalDay d tz)).filter
          (fun e => e.type == EntryType.check_out) ≠ [] := by
        intro hq
        rw [hq] at h2
        simp at h2
      have hbts : b.timestamp = startOfLocalDay d tz := by
        have hmem := mem_of_getLast?_eq h2
        have hmem2 : b ∈ entriesAt db.timeEntries tid (startOfLocalDay d tz) :=
          List.mem_of_mem_filter hmem
        exact (entriesAt_spec hmem2).2
      simp [h1, h2, hne, hne2, hats, hbts, round2_zero]

/-- Claim C1 witness: the amended statement evaluated on the ledger
with a single open check-in at the day-start instant. -/
theorem c1_amended_stored_total_witness :
    findSession dbMidnightCheckIn.workSessions "u" 0 = none ∧
    (updateWorkSession dbMidnightCheckIn "u" 0 0 150).1.totalHours =
      (if visibleCheckIns dbMidnightCheckIn "u" 0 0 = [] then 0
       else if visibleCheckOuts dbMidnightCheckIn "u" 0 0 = [] then
         round2 (150 - startOfLocalDay 0 0)
       else 0) :=
  ⟨by decide, c1_amended_stored_total dbMidnightCheckIn "u" 0 0 150 (by decide)⟩

/-- Claim C2 counterexample: the user checks in exactly at local
midnight and nothing else; at query instant 150 minutes later the
persisted aggregate stores 2.50 hours (250 centi-hours), not 0.00, so
the live elapsed value is written to the store before any checkout. -/
theorem c2_counterexample_stored_total_nonzero :
    (checkIn dbEmptyLedger "u" 0 150 none none).1.success = true ∧
    findSession (checkIn dbEmptyLedger "u" 0 150 none none).2.workSessions "u" 0 =
      some { telegramId := "u", date := 0, checkIn := some 0, checkOut := none,
             totalHours := 250, breakMinutes := 0, isComplete := false } := by
  decide

/-- Claim C2 (amended): when the recomputation sees a check-in and no
check-out for the day (and no aggregate was stored before), the live
elapsed value round2(now minus check-in) IS written into the persisted
aggregate total, the day is marked incomplete, and the row is
retrievable from the store afterwards. -/
theorem c2_amended_live_value_persisted (db : DB) (tid : String)
    (d tz now : Int) (e : TimeEntry) (rest : List TimeEntry)
    (hNoPrior : findSession db.workSessions tid d = none)
    (hIns : visibleCheckIns db tid d tz = e :: rest)
    (hOuts : visibleCheckOuts db tid d tz = []) :
    (updateWorkSession db tid d tz now).1.totalHours = round2 (now - e.timestamp) ∧
    (updateWorkSession db tid d tz now).1.isComplete = false ∧
    findSession (updateWorkSession db tid d tz now).2.workSessions tid d =
      some (updateWorkSession db tid d tz now).1 := by
  simp only [visibleCheckIns] at hIns
  simp only [visibleCheckOuts] at hOuts
  refine ⟨?_, ?_, findSession_after_update db tid d tz now⟩ <;>
  · rw [updateWorkSession_fst, hNoPrior]
    simp only [Option.getD_none]
    unfold computeSession
    rw [hIns, hOuts]
    simp

/-- Claim C2 witness: the amended statement evaluated on the open
midnight check-in at query instant 150. -/
theorem c2_amended_live_value_persisted_witness :
    (updateWorkSession dbMidnightCheckIn "u" 0 0 150).1.totalHours =
      round2 (150 - 0) ∧
    (updateWorkSession dbMidnightCheckIn "u" 0 0 150).1.isComplete = false ∧
    findSession (updateWorkSession dbMidnightCheckIn "u" 0 0 150).2.workSessions
        "u" 0 = some (updateWorkSession dbMidnightCheckIn "u" 0 0 150).1 :=
  c2_amended_live_value_persisted dbMidnightCheckIn "u" 0 0 150
    { telegramId := "u", type := EntryType.check_in, timestamp := 0 } []
    (by decide) (by decide) (by decide)

/-- Claim C3 evaluated at the failing input: for the UTC-plus-one-hour
user, a check-in at minute 1435 (23:55 UTC) and a check-out at minute
1455 (00:15 UTC of the next UTC day) both fall in local day 1 even
though they fall in different UTC days; the check-in succeeds, but the
check-out is rejected with NoOpenCheckIn and the single aggregate
stored for local day 1 records neither event, so the pair is never
aggregated into one session as the claim requires. -/
theorem c3_code_bug_same_local_day_pair_rejected :
    localDay 1435 60 = localDay 1455 60 ∧
    localDay 1435 0 ≠ localDay 1455 0 ∧
    (checkIn dbPlus60 "u" 1435 1435 none none).1.success = true ∧
    (checkOut (checkIn dbPlus60 "u" 1435 1435 none none).2 "u" 1455 1455
        none none).1.message = BotMessage.needCheckInFirst ∧
    (checkOut (checkIn dbPlus60 "u" 1435 1435 none none).2 "u" 1455 1455
        none none).2.workSessions =
      [{ telegramId := "u", date := 1, checkIn := none, checkOut := none,
         totalHours := 0, breakMinutes := 0, isComplete := false }] := by
  decide

/-- Claim C4 counterexample: a day whose only (hence chronologically
last) event is a check-out yields an aggregate with isComplete false,
so isComplete is not equivalent to the last event being a check-out. -/
theorem c4_counterexample_last_event_checkout_incomplete :
    dayEvents dbOnlyCheckOut.timeEntries "u" 0 0 =
      [{ telegramId := "u", type := EntryType.check_out, timestamp := 0 }] ∧
    (updateWorkSession dbOnlyCheckOut "u" 0 0 100).1.isComplete = false := by
  decide

/-- Claim C4 (amended): for a day with no previously stored aggregate,
the recomputed isComplete flag is true exactly when both a check-in and
a check-out are visible to the day query (entries at the day-start
instant), regardless of which kind of event comes last in the day. -/
theorem c4_amended_isComplete_iff_both_visible (db : DB) (tid : String)
    (d tz now : Int)
    (hNoPrior : findSession db.workSessions tid d = none) :
    ((updateWorkSession db tid d tz now).1.isComplete = true) ↔
      (visibleCheckIns db tid d tz ≠ [] ∧ visibleCheckOuts db tid d tz ≠ []) := by
  rw [updateWorkSession_fst, hNoPrior]
  simp only [Option.getD_none, visibleCheckIns, visibleCheckOuts]
  unfold computeSession
  cases h1 : ((entriesAt db.timeEntries tid (startOfLocalDay d tz)).filter
      (fun e => e.type == EntryType.check_in)).head? with
  | none =>
    have hnil : (entriesAt db.timeEntries tid (startOfLocalDay d tz)).filter
        (fun e => e.type == EntryType.check_in) = [] :=
      List.head?_eq_none_iff.mp h1
    cases h2 : ((entriesAt db.timeEntries tid (startOfLocalDay d tz)).filter
        (fun e => e.type == EntryType.check_out)).getLast? <;>
      simp [h1, h2, hnil]
  | some a =>
    have hne : (entriesAt db.timeEntries tid (startOfLocalDay d tz)).filter
        (fun e => e.type == EntryType.check_in) ≠ [] := by
      intro hq
      rw [hq] at h1
      simp at h1
    cases h2 : ((entriesAt db.timeEntries tid (startOfLocalDay d tz)).filter
        (fun e => e.type == EntryType.check_out)).getLast? with
    | none =>
      have hnil2 : (entriesAt db.timeEntries tid (startOfLocalDay d tz)).filter
          (fun e => e.type == EntryType.check_out) = [] :=
        List.getLast?_eq_none_iff.mp h2
      simp [h1, h2, hne, hnil2]
    | some b =>
      have hne2 : (entriesAt db.timeEntries tid (startOfLocalDay d tz)).filter
          (fun e => e.type == EntryType.check_out) ≠ [] := by
        intro hq
        rw [hq] at h2
        simp at h2
      simp [h1, h2, hne, hne2]

/-- Claim C4 witness: the amended equivalence evaluated on the
09:00-17:00 ledger (whose events are invisible to the day query). -/
theorem c4_amended_isComplete_iff_both_visible_witness :
    findSession dbClosedPair.workSessions "u" 0 = none ∧
    (((updateWorkSession dbClosedPair "u" 0 0 100).1.isComplete = true) ↔
      (visibleCheckIns dbClosedPair "u" 0 0 ≠ [] ∧
       visibleCheckOuts dbClosedPair "u" 0 0 ≠ [])) :=
  ⟨by decide, c4_amended_isComplete_iff_both_visible dbClosedPair "u" 0 0 100
    (by decide)⟩

/-- Claim C5 counterexample: with an unchanged event set (one visible
open check-in), recomputing at wall-clock 60 stores 1.00 hour and
recomputing again at wall-clock 120 stores 2.00 hours, so recomputation
is not idempotent as stated: its output depends on the clock. -/
theorem c5_counterexample_wall_clock_dependence :
    (updateWorkSession dbMidnightCheckIn "u" 0 0 60).1.totalHours = 100 ∧
    (updateWorkSession (updateWorkSession dbMidnightCheckIn "u" 0 0 60).2
        "u" 0 0 120).1.totalHours = 200 := by
  decide

/-- Claim C5 (amended): recomputing the Session Aggregate twice on an
unchanged event set AND at the same wall-clock instant yields the
identical session and the identical state. -/
theorem c5_amended_recompute_idempotent_fixed_now (db : DB) (tid : String)
    (d tz now : Int) :
    updateWorkSession (updateWorkSession db tid d tz now).2 tid d tz now =
      updateWorkSession db tid d tz now := by
  have hTE : (updateWorkSession db tid d tz now).2.timeEntries = db.timeEntries := by
    rw [updateWorkSession_snd]
  have hfst : (updateWorkSession (updateWorkSession db tid d tz now).2
      tid d tz now).1 = (updateWorkSession db tid d tz now).1 := by
    rw [updateWorkSession_fst ((updateWorkSession db tid d tz now).2) tid d tz now,
      hTE, findSession_after_update db tid d tz now]
    simp only [Option.getD_some]
    rw [updateWorkSession_fst db tid d tz now]
    exact computeSession_idem _ _ _
  have hsnd : (updateWorkSession (updateWorkSession db tid d tz now).2
      tid d tz now).2 = (updateWorkSession db tid d tz now).2 := by
    rw [updateWorkSession_snd ((updateWorkSession db tid d tz now).2) tid d tz now,
      hfst]
    rw [updateWorkSession_snd db tid d tz now]
    simp only []
    rw [saveSession_idem]
  rw [Prod.ext_iff]
  exact ⟨hfst, hsnd⟩

/-- Claim C6 evaluated at the failing input: the UTC user checks in at
09:00 (minute 540) and again at 10:00 (minute 600) with no check-out
in between; the second call succeeds instead of failing with
AlreadyCheckedIn, and a second check-in event is inserted into the
ledger. -/
theorem c6_code_bug_second_check_in_accepted :
    (checkIn dbEmptyLedger "u" 540 540 none none).1.success = true ∧
    (checkIn (checkIn dbEmptyLedger "u" 540 540 none none).2 "u" 600 600
        none none).1.success = true ∧
    ((checkIn (checkIn dbEmptyLedger "u" 540 540 none none).2 "u" 600 600
        none none).2.timeEntries.filter
          (fun e => e.type == EntryType.check_in)).length = 2 := by
  decide

/-- Claim C7 evaluated at the failing input: after a successful 09:00
check-in, local day 0 holds one check-in and no check-out, yet the
17:00 check-out is rejected with NoOpenCheckIn and leaves the state
unchanged instead of appending the event and returning success with the
recomputed total. -/
theorem c7_code_bug_checkout_rejected_despite_open_day :
    ((dayEvents (checkIn dbEmptyLedger "u" 540 540 none none).2.timeEntries
        "u" 0 0).filter (fun e => e.type == EntryType.check_in)).length = 1 ∧
    ((dayEvents (checkIn dbEmptyLedger "u" 540 540 none none).2.timeEntries
        "u" 0 0).filter (fun e => e.type == EntryType.check_out)).length = 0 ∧
    (checkOut (checkIn dbEmptyLedger "u" 540 540 none none).2 "u" 1020 1020
        none none).1.success = false ∧
    (checkOut (checkIn dbEmptyLedger "u" 540 540 none none).2 "u" 1020 1020
        none none).1.message = BotMessage.needCheckInFirst ∧
    (checkOut (checkIn dbEmptyLedger "u" 540 540 none none).2 "u" 1020 1020
        none none).2 = (checkIn dbEmptyLedger "u" 540 540 none none).2 := by
  decide

/-- Claim C8 counterexample: in the ascending-by-date month with two
days tied at the minimum nonzero hours (dates 2 and 3), the Shortest
day record is the date-3 session, the LAST occurrence, while the first
occurrence in the result set is the distinct date-2 session, so the
first-occurrence tie-break claimed for the minimum does not hold. -/
theorem c8_counterexample_shortest_day_last_occurrence :
    worstDay monthSessions = some wsShortB ∧
    firstMinByHours (activeSessions monthSessions) = some wsShortA ∧
    wsShortA ≠ wsShortB ∧
    wsShortA.totalHours = wsShortB.totalHours := by
  decide

/-- Claim C8 (amended): over any ascending-by-date result set, the Best
day record is the FIRST occurrence of the maximum among active
(nonzero) days, while the Shortest day record is the LAST occurrence of
the minimum among active days; only the best-day tie-break is
first-occurrence. -/
theorem c8_amended_tie_break_first_max_last_min (l : List WorkSession) :
    bestDay l = firstMaxByHours (activeSessions l) ∧
    worstDay l = lastMinByHours (activeSessions l) :=
  ⟨head?_sortByHoursDesc (activeSessions l),
   getLast?_sortByHoursDesc (activeSessions l)⟩

/-- Claim C9: every operation that writes the Session Aggregate store
(the recomputation, a check-in, a check-out) preserves the invariant
that no two stored aggregates share the (telegramId, date) key. -/
theorem c9_unique_key_preserved (db : DB) (tid : String) (t now d tz : Int)
    (m n : Option String) (h : KeyDistinct db.workSessions) :
    KeyDistinct (updateWorkSession db tid d tz now).2.workSessions ∧
    KeyDistinct (checkIn db tid t now m n).2.workSessions ∧
    KeyDistinct (checkOut db tid t now m n).2.workSessions := by
  refine ⟨?_, ?_, ?_⟩
  · rw [updateWorkSession_snd]
    exact keyDistinct_saveSession _ h
  · unfold checkIn
    cases hu : findUser db tid with
    | none => exact h
    | some u =>
      simp only []
      split
      · exact h
      · exact keyDistinct_saveSession _ h
  · unfold checkOut
    cases hu : findUser db tid with
    | none => exact h
    | some u =>
      simp only []
      split
      · exact h
      · split
        · exact h
        · exact keyDistinct_saveSession _ h

/-- Claim C9 witness: the invariant evaluated through a concrete
check-in, check-out and recomputation on the empty store. -/
theorem c9_unique_key_preserved_witness :
    KeyDistinct dbEmptyLedger.workSessions ∧
    KeyDistinct (updateWorkSession dbEmptyLedger "u" 0 0 100).2.workSessions ∧
    KeyDistinct (checkIn dbEmptyLedger "u" 540 540 none none).2.workSessions ∧
    KeyDistinct (checkOut dbEmptyLedger "u" 540 540 none none).2.workSessions := by
  have h : KeyDistinct dbEmptyLedger.workSessions := by
    simp [KeyDistinct, dbEmptyLedger]
  have h2 := c9_unique_key_preserved dbEmptyLedger "u" 540 540 0 0 none none h
  exact ⟨h, h2.1, h2.2.1, h2.2.2⟩

/-- Claim C10: whenever checkIn or checkOut returns a failure result,
the persisted state (users, ledger and aggregates) is returned exactly
as it was before the call: no event is appended and no aggregate is
created or modified. -/
theorem c10_failure_leaves_state_unchanged (db : DB) (tid : String)
    (t now : Int) (m n : Option String) :
    ((checkIn db tid t now m n).1.success = false →
      (checkIn db tid t now m n).2 = db) ∧
    ((checkOut db tid t now m n).1.success = false →
      (checkOut db tid t now m n).2 = db) := by
  constructor
  · unfold checkIn
    cases hu : findUser db tid with
    | none =>
      intro h
      rfl
    | some u =>
      simp only []
      split
      · intro h
        rfl
      · intro h
        simp at h
  · unfold checkOut
    cases hu : findUser db tid with
    | none =>
      intro h
      rfl
    | some u =>
      simp only []
      split
      · intro h
        rfl
      · split
        · intro h
          rfl
        · intro h
          simp at h

/-- Claim C10 witness: both failure frames evaluated on the
unknown-user input. -/
theorem c10_failure_leaves_state_unchanged_witness :
    (checkIn dbNoUsers "u" 540 540 none none).1.success = false ∧
    (checkIn dbNoUsers "u" 540 540 none none).2 = dbNoUsers ∧
    (checkOut dbNoUsers "u" 540 540 none none).1.success = false ∧
    (checkOut dbNoUsers "u" 540 540 none none).2 = dbNoUsers := by
  have h := c10_failure_leaves_state_unchanged dbNoUsers "u" 540 540 none none
  exact ⟨by decide, h.1 (by decide), by decide, h.2 (by decide)⟩
